/-
  Verification of the clear-songs-front aggregation, pagination, deletion
  workflow, interceptor and auth-status logic against its specification.

  The TypeScript sources are shallowly embedded: JS arrays become `List`,
  `Array.prototype.sort` (stable since ES2019) becomes a stable insertion
  sort driven by the same integer comparator, `Array.prototype.slice`
  becomes `jsSlice` with JavaScript's negative-index clamping, nullable
  numbers become `Option Int`, and the `undefined | null | number` values
  that reach `buildRangeParams` become `JSNum`.  Side effects (toasts,
  navigation, loading flags, form resets) are modelled as explicit effect
  lists produced by pure handler functions.
-/
import Mathlib

/-- Embedding of the `ArtistSummary` model (src/app/core/models/artist.model.ts):
`{ id: string, name: string, count: number, imageUrl?: string }`; the optional
image URL plays no role in any computation and is omitted. `count` is a
non-negative integer (track count). -/
structure ArtistSummary where
  id : String
  name : String
  count : Nat
  deriving DecidableEq, Repr

/-- JavaScript `a.includes(b)` on strings: `b` occurs as a contiguous
substring of `a`. -/
def jsIncludes (a b : String) : Bool :=
  decide (b.toList <:+: a.toList)

/-- One step of the stable sort used to embed `Array.prototype.sort(cmp)`:
insert `x` (an element that occurs *earlier* in the input than everything in
`l`) into the already-sorted `l`, placing it before the first `y` with
`cmp x y ≤ 0` — so ties keep their input order, exactly the ES2019 stable
sort guarantee. -/
def orderedInsertJS (cmp : α → α → Int) (x : α) : List α → List α
  | [] => [x]
  | y :: ys => if cmp x y ≤ 0 then x :: y :: ys else y :: orderedInsertJS cmp x ys

/-- Embedding of `[...arr].sort(cmp)` for a consistent comparator: a stable
sort that puts `a` before `b` when `cmp a b < 0` and keeps input order on
ties (`cmp a b = 0`). -/
def jsSort (cmp : α → α → Int) : List α → List α
  | [] => []
  | x :: xs => orderedInsertJS cmp x (jsSort cmp xs)

/-- The properties a JavaScript comparator must have for `sort` to be
deterministic: antisymmetric signs and transitive non-positivity.  Both
comparators the code uses (`b.count - a.count`, `a.count - b.count`,
`localeCompare`) satisfy them. -/
structure LawfulJSComparator (cmp : α → α → Int) : Prop where
  antisym : ∀ a b, cmp a b ≤ 0 ↔ 0 ≤ cmp b a
  trans : ∀ a b c, cmp a b ≤ 0 → cmp b c ≤ 0 → cmp a c ≤ 0

theorem orderedInsertJS_perm (cmp : α → α → Int) (x : α) (l : List α) :
    (orderedInsertJS cmp x l).Perm (x :: l) := by
  induction l with
  | nil => exact List.Perm.refl _
  | cons y ys ih =>
    unfold orderedInsertJS
    by_cases h : cmp x y ≤ 0
    · simp [h]
    · simp only [h, if_false]
      exact (ih.cons y).trans (List.Perm.swap x y ys)

theorem jsSort_perm (cmp : α → α → Int) (l : List α) :
    (jsSort cmp l).Perm l := by
  induction l with
  | nil => exact List.Perm.refl _
  | cons x xs ih =>
    exact (orderedInsertJS_perm cmp x (jsSort cmp xs)).trans (ih.cons x)

theorem orderedInsertJS_pairwise (cmp : α → α → Int) (hc : LawfulJSComparator cmp)
    (x : α) (l : List α) (hl : l.Pairwise (fun a b => cmp a b ≤ 0)) :
    (orderedInsertJS cmp x l).Pairwise (fun a b => cmp a b ≤ 0) := by
  induction l with
  | nil => simp [orderedInsertJS]
  | cons y ys ih =>
    rw [List.pairwise_cons] at hl
    unfold orderedInsertJS
    by_cases h : cmp x y ≤ 0
    · simp only [h, if_true]
      refine List.pairwise_cons.mpr ⟨?_, List.pairwise_cons.mpr hl⟩
      intro b hb
      rcases List.mem_cons.mp hb with hb | hb
      · exact hb ▸ h
      · exact hc.trans x y b h (hl.1 b hb)
    · simp only [h, if_false]
      refine List.pairwise_cons.mpr ⟨?_, ih hl.2⟩
      intro b hb
      have hmem := (orderedInsertJS_perm cmp x ys).mem_iff.mp hb
      rcases List.mem_cons.mp hmem with hb' | hb'
      · rw [hb']
        have h2 : ¬ 0 ≤ cmp y x := fun h0 => h ((hc.antisym x y).mpr h0)
        omega
      · exact hl.1 b hb'

theorem jsSort_pairwise (cmp : α → α → Int) (hc : LawfulJSComparator cmp) (l : List α) :
    (jsSort cmp l).Pairwise (fun a b => cmp a b ≤ 0) := by
  induction l with
  | nil => simp [jsSort]
  | cons x xs ih => exact orderedInsertJS_pairwise cmp hc x _ ih

theorem orderedInsertJS_filter_pos (cmp : α → α → Int) (p : α → Bool) (x : α)
    (l : List α) (hx : p x = true) (hcl : ∀ b, p b = true → cmp x b = 0) :
    (orderedInsertJS cmp x l).filter p = x :: l.filter p := by
  induction l with
  | nil => simp [orderedInsertJS, hx]
  | cons y ys ih =>
    unfold orderedInsertJS
    by_cases h : cmp x y ≤ 0
    · simp [h, hx]
    · simp only [h, if_false]
      by_cases hy : p y = true
      · have h0 : cmp x y = 0 := hcl y hy
        omega
      · simp only [List.filter_cons, Bool.not_eq_true] at hy ⊢
        rw [hy]
        simpa [hy] using ih

theorem orderedInsertJS_filter_neg (cmp : α → α → Int) (p : α → Bool) (x : α)
    (l : List α) (hx : p x = false) :
    (orderedInsertJS cmp x l).filter p = l.filter p := by
  induction l with
  | nil => simp [orderedInsertJS, hx]
  | cons y ys ih =>
    unfold orderedInsertJS
    by_cases h : cmp x y ≤ 0
    · simp [h, hx]
    · simp only [h, if_false, List.filter_cons]
      rw [ih]

/-- Stability of the embedded JavaScript sort: a predicate that only holds
inside one tie-class of the comparator selects the same subsequence before
and after sorting. -/
theorem jsSort_filter_stable (cmp : α → α → Int) (p : α → Bool)
    (hcl : ∀ a b, p a = true → p b = true → cmp a b = 0) (l : List α) :
    (jsSort cmp l).filter p = l.filter p := by
  induction l with
  | nil => rfl
  | cons x xs ih =>
    unfold jsSort
    by_cases hx : p x = true
    · rw [orderedInsertJS_filter_pos cmp p x _ hx (fun b hb => hcl x b hx hb),
        List.filter_cons, hx, ih]
      simp
    · rw [Bool.not_eq_true] at hx
      rw [orderedInsertJS_filter_neg cmp p x _ hx, List.filter_cons, hx, ih]
      simp

/-- The comparator `(a, b) => b.count - a.count` from `TrackStore.topArtists`
(src/app/core/stores/track.store.ts) and `DashboardComponent.setupChart`. -/
def cmpCountDesc (a b : ArtistSummary) : Int :=
  (b.count : Int) - (a.count : Int)

/-- `TrackStore.topArtists`:
`[...this._artists()].sort((a, b) => b.count - a.count).slice(0, 5)`. -/
def topArtists (artists : List ArtistSummary) : List ArtistSummary :=
  (jsSort cmpCountDesc artists).take 5

/-- `DashboardComponent.setupChart`: sorts a copy of the data descending by
count, takes the top 5, and maps each artist to `{label, value}`. -/
def setupChartData (data : List ArtistSummary) : List (String × Nat) :=
  (((jsSort cmpCountDesc data).take 5).map (fun artist => (artist.name, artist.count)))

theorem cmpCountDesc_lawful : LawfulJSComparator cmpCountDesc := by
  constructor
  · intro a b
    simp only [cmpCountDesc]
    omega
  · intro a b c
    simp only [cmpCountDesc]
    omega

/-- The six-element list of the spec's worked `topN` example. -/
def topNExample : List ArtistSummary :=
  [⟨"a", "a", 10⟩, ⟨"b", "b", 3⟩, ⟨"c", "c", 7⟩,
   ⟨"d", "d", 1⟩, ⟨"e", "e", 9⟩, ⟨"f", "f", 2⟩]

/-- C1: the top-N computation (`topArtists` / `setupChart`, n = 5) returns the
first 5 elements of the input sorted in descending order of `count`, the sort
is a permutation and is stable (elements with equal count keep their relative
input order), and on `[a 10, b 3, c 7, d 1, e 9, f 2]` it returns
`[a 10, e 9, c 7, b 3, f 2]`. -/
theorem topN_sorts_desc_stable_take5 :
    (∀ l : List ArtistSummary,
        topArtists l = (jsSort cmpCountDesc l).take 5
      ∧ (jsSort cmpCountDesc l).Perm l
      ∧ (jsSort cmpCountDesc l).Pairwise (fun a b => b.count ≤ a.count)
      ∧ (∀ c : Nat,
          (jsSort cmpCountDesc l).filter (fun a => a.count == c)
            = l.filter (fun a => a.count == c)))
  ∧ topArtists topNExample
      = [⟨"a", "a", 10⟩, ⟨"e", "e", 9⟩, ⟨"c", "c", 7⟩, ⟨"b", "b", 3⟩, ⟨"f", "f", 2⟩]
  ∧ setupChartData topNExample
      = [("a", 10), ("e", 9), ("c", 7), ("b", 3), ("f", 2)] := by
  refine ⟨fun l => ⟨rfl, jsSort_perm _ _, ?_, fun c => ?_⟩, by decide, by decide⟩
  · refine (jsSort_pairwise cmpCountDesc cmpCountDesc_lawful l).imp ?_
    intro a b h
    simp only [cmpCountDesc] at h
    omega
  · refine jsSort_filter_stable cmpCountDesc _ ?_ l
    intro a b ha hb
    have ha' : a.count = c := by simpa using ha
    have hb' : b.count = c := by simpa using hb
    simp only [cmpCountDesc, ha', hb']
    omega

/-- `TrackStore.totalTracks`:
`this._artists().reduce((sum, artist) => sum + artist.count, 0)` — the same
computation as `DashboardComponent.calculateStats`'s `totalTracks`. -/
def totalTracks (artists : List ArtistSummary) : Nat :=
  artists.foldl (fun sum artist => sum + artist.count) 0

/-- `TrackStore.totalArtists`: `this._artists().length` — the same computation
as `DashboardComponent.calculateStats`'s `totalArtists`. -/
def totalArtists (artists : List ArtistSummary) : Nat :=
  artists.length

theorem totalTracks_foldl (l : List ArtistSummary) (n : Nat) :
    l.foldl (fun sum artist => sum + artist.count) n = n + (l.map (fun a => a.count)).sum := by
  induction l generalizing n with
  | nil => simp
  | cons a l ih =>
    simp only [List.foldl_cons, List.map_cons, List.sum_cons, ih]
    omega

/-- C2: for every list of artist summaries the totals computation returns
`totalArtists` equal to the length of the list and `totalTracks` equal to the
sum of all `count` fields (both are total functions, so no error is
possible), and on the empty list both totals are 0. -/
theorem computeTotals_length_and_sum :
    (∀ l : List ArtistSummary,
        totalTracks l = (l.map (fun a => a.count)).sum ∧ totalArtists l = l.length)
  ∧ totalTracks [] = 0 ∧ totalArtists [] = 0 := by
  refine ⟨fun l => ⟨?_, rfl⟩, rfl, rfl⟩
  simpa using totalTracks_foldl l 0

/-- Index resolution of JavaScript `Array.prototype.slice` (ECMA-262): a
negative index is taken relative to the end of the array and clamped at 0; a
non-negative index is clamped at the length. -/
def jsSliceIdx (len : Nat) (i : Int) : Int :=
  if i < 0 then max ((len : Int) + i) 0 else min i (len : Int)

/-- JavaScript `arr.slice(start, end)`: the elements from the resolved start
index (inclusive) to the resolved end index (exclusive). -/
def jsSlice (l : List α) (start stop : Int) : List α :=
  (l.drop (jsSliceIdx l.length start).toNat).take
    ((jsSliceIdx l.length stop) - (jsSliceIdx l.length start)).toNat

/-- `DashboardComponentRefactored.paginatedArtists` (src/unnamed/part_008):
`const start = (this.currentPage() - 1) * this.itemsPerPage();
 const end = start + this.itemsPerPage();
 return this.filteredArtists().slice(start, end);`
The already-filtered list and the two signal values are parameters. -/
def paginatedArtists (filtered : List ArtistSummary) (currentPage itemsPerPage : Int) :
    List ArtistSummary :=
  jsSlice filtered ((currentPage - 1) * itemsPerPage)
    ((currentPage - 1) * itemsPerPage + itemsPerPage)

/-- `DashboardComponentRefactored.totalPages`:
`Math.ceil(this.filteredArtists().length / this.itemsPerPage())` for a
positive integer page size. -/
def totalPages (len size : Nat) : Nat :=
  (len + size - 1) / size

theorem jsSlice_of_nonneg (l : List α) (start stop : Int)
    (h0 : 0 ≤ start) (h1 : start ≤ stop) :
    jsSlice l start stop = (l.drop start.toNat).take (stop - start).toNat := by
  unfold jsSlice jsSliceIdx
  have hs : ¬ start < 0 := by omega
  have he : ¬ stop < 0 := by omega
  rw [if_neg hs, if_neg he]
  rcases le_or_lt start (l.length : Int) with hc | hc
  · rw [min_eq_left hc]
    rcases le_or_lt stop (l.length : Int) with hd | hd
    · rw [min_eq_left hd]
    · rw [min_eq_right (le_of_lt hd)]
      have hlen : (l.drop start.toNat).length = l.length - start.toNat :=
        List.length_drop _ _
      rw [List.take_of_length_le (by rw [hlen]; omega),
        List.take_of_length_le (by rw [hlen]; omega)]
  · rw [min_eq_right (le_of_lt hc)]
    have h2 : l.drop ((l.length : Int)).toNat = [] :=
      List.drop_of_length_le (by omega)
    have h3 : l.drop start.toNat = [] :=
      List.drop_of_length_le (by omega)
    rw [h2, h3, List.take_nil, List.take_nil]

/-- A list of 23 distinct artist summaries, for the spec's pagination
example. -/
def paginationExample : List ArtistSummary :=
  (List.range 23).map (fun i => ⟨toString i, toString i, i⟩)

/-- C3 counterexample: the claim says every out-of-range page — including
negative pages — yields the empty sequence, but JavaScript `slice` resolves
negative indices relative to the end of the array: on the 23-item example
list, page -1 with page size 10 resolves to `slice(-20, -10)`, i.e. indices
3 to 13, which is a non-empty (10-element) slice. -/
theorem paginate_negative_page_not_empty :
    paginatedArtists paginationExample (-1) 10 ≠ []
  ∧ (paginatedArtists paginationExample (-1) 10).length = 10 := by
  constructor
  · decide
  · decide

/-- C3 (amended): for pages ≥ 1 and positive page size, pagination returns
exactly the slice [(page-1)*size, page*size) of the filtered list; page 0 and
every page past `totalPages = ceil(length/size)` return the empty sequence
(no error is possible); on a 23-item list with page size 10, pages 1 and 2
have 10 items, page 3 has 3, and page 4 is empty.  (Negative pages, however,
follow JavaScript's relative-index semantics and can be non-empty.) -/
theorem paginate_slice_and_out_of_range (filtered : List ArtistSummary)
    (page size : Int) (hp : 1 ≤ page) (hs : 1 ≤ size) :
    paginatedArtists filtered page size
      = (filtered.drop ((page - 1) * size).toNat).take size.toNat
  ∧ paginatedArtists filtered 0 size = []
  ∧ ((filtered.length : Int) ≤ (page - 1) * size →
      paginatedArtists filtered page size = [])
  ∧ (∀ p q : Nat, 1 ≤ q → totalPages filtered.length q < p →
      paginatedArtists filtered (p : Int) (q : Int) = [])
  ∧ (paginatedArtists paginationExample 1 10).length = 10
  ∧ (paginatedArtists paginationExample 2 10).length = 10
  ∧ (paginatedArtists paginationExample 3 10).length = 3
  ∧ paginatedArtists paginationExample 4 10 = [] := by
  have hmain : ∀ pg sz : Int, 1 ≤ pg → 1 ≤ sz →
      paginatedArtists filtered pg sz
        = (filtered.drop ((pg - 1) * sz).toNat).take sz.toNat := by
    intro pg sz hpg hsz
    unfold paginatedArtists
    have hstart : 0 ≤ (pg - 1) * sz := mul_nonneg (by omega) (by omega)
    rw [jsSlice_of_nonneg _ _ _ hstart (by omega)]
    congr 1
    omega
  refine ⟨hmain page size hp hs, ?_, ?_, ?_, by decide, by decide, by decide, by decide⟩
  · unfold paginatedArtists jsSlice jsSliceIdx
    have h1 : (0 - 1) * size < 0 := by omega
    have h2 : ¬ ((0 - 1) * size + size < 0) := by omega
    rw [if_pos h1, if_neg h2]
    have h5 : (min ((0 - 1) * size + size) (filtered.length : Int)
        - max ((filtered.length : Int) + (0 - 1) * size) 0).toNat = 0 := by
      omega
    rw [h5, List.take_zero]
  · intro hlen
    rw [hmain page size hp hs]
    rw [List.drop_of_length_le (by omega), List.take_nil]
  · intro p q hq hpq
    have hp1 : 1 ≤ (p : Int) := by
      have h0 : totalPages filtered.length q < p := hpq
      omega
    rw [hmain (p : Int) (q : Int) hp1 (by exact_mod_cast hq)]
    unfold totalPages at hpq
    have h6 : filtered.length + q - 1 < p * q :=
      (Nat.div_lt_iff_lt_mul (by omega)).mp hpq
    have hmul : (p - 1) * q = p * q - q := by
      cases p with
      | zero => omega
      | succ n => simp [Nat.succ_sub_one, Nat.succ_mul]
    have h7 : ((p : Int) - 1) * (q : Int) = (((p - 1) * q : Nat) : Int) := by
      rw [show ((p : Int) - 1) = ((p - 1 : Nat) : Int) by omega, ← Nat.cast_mul]
    rw [h7]
    have h8 : ((((p - 1) * q : Nat) : Int)).toNat = (p - 1) * q := by omega
    rw [h8, List.drop_of_length_le (by omega), List.take_nil]

/-- Witness for the pagination theorem at page 2 / size 10 and at the
out-of-range page 4 of the 23-item example. -/
theorem paginate_slice_witness :
    ((1 : Int) ≤ 2 ∧ (1 : Int) ≤ 10)
  ∧ paginatedArtists paginationExample 2 10
      = (paginationExample.drop (((2 : Int) - 1) * 10).toNat).take ((10 : Int)).toNat
  ∧ (1 ≤ 10 ∧ totalPages paginationExample.length 10 < 4)
  ∧ paginatedArtists paginationExample ((4 : Nat) : Int) ((10 : Nat) : Int) = [] :=
  ⟨⟨by decide, by decide⟩,
   (paginate_slice_and_out_of_range paginationExample 2 10 (by decide) (by decide)).1,
   ⟨by decide, by decide⟩,
   (paginate_slice_and_out_of_range paginationExample 2 10 (by decide)
     (by decide)).2.2.2.1 4 10 (by decide) (by decide)⟩

/-- The two sortable columns of the dashboard table. -/
inductive SortColumn where
  | name
  | count
  deriving DecidableEq, Repr

/-- The two sort directions of the dashboard table. -/
inductive SortDir where
  | asc
  | desc
  deriving DecidableEq, Repr

/-- The comparator built inside `DashboardComponentRefactored.filteredArtists`
(src/unnamed/part_008): by `localeCompare` on names or numeric difference on
counts, negated for descending order.  `localeCompare` is a host (locale-
dependent) function, so it is a parameter `lc` of the embedding. -/
def dashboardComparator (lc : String → String → Int) (col : SortColumn)
    (dir : SortDir) (a b : ArtistSummary) : Int :=
  let comparison : Int :=
    match col with
    | .name => lc a.name b.name
    | .count => (a.count : Int) - (b.count : Int)
  match dir with
  | .asc => comparison
  | .desc => -comparison

/-- JavaScript whitespace for `String.prototype.trim` (restricted to the
ASCII white-space characters). -/
def jsWhitespace (c : Char) : Bool :=
  c.isWhitespace

/-- JavaScript `s.trim()` as a character list: strip leading and trailing
whitespace. -/
def jsTrim (s : String) : List Char :=
  ((s.toList.dropWhile jsWhitespace).reverse.dropWhile jsWhitespace).reverse

/-- JavaScript `s.toLowerCase()` as a character list (ASCII fragment of the
Unicode lowering the host performs). -/
def jsLowerChars (l : List Char) : List Char :=
  l.map Char.toLower

/-- JavaScript `a.includes(b)` on character lists. -/
def jsIncludesChars (a b : List Char) : Bool :=
  decide (b <:+: a)

/-- `DashboardComponentRefactored.filteredArtists` (src/unnamed/part_008):
trims and lower-cases the search filter; if the result is non-empty keeps the
artists whose lower-cased name includes it; then sorts a copy with
`dashboardComparator`.  (The source sorts `[...filtered]`, a fresh copy, so
the input array is never mutated; in this pure embedding that is inherent.) -/
def filteredArtists (lc : String → String → Int) (artists : List ArtistSummary)
    (searchFilter : String) (col : SortColumn) (dir : SortDir) :
    List ArtistSummary :=
  let filterValue := jsLowerChars (jsTrim searchFilter)
  let filtered :=
    if filterValue = [] then artists
    else artists.filter (fun artist =>
      jsIncludesChars (jsLowerChars artist.name.toList) filterValue)
  jsSort (dashboardComparator lc col dir) filtered

theorem cmpCountAsc_lawful (lc : String → String → Int) :
    LawfulJSComparator (dashboardComparator lc .count .asc) := by
  constructor
  · intro a b
    simp only [dashboardComparator]
    omega
  · intro a b c
    simp only [dashboardComparator]
    omega

theorem cmpCountDescDir_lawful (lc : String → String → Int) :
    LawfulJSComparator (dashboardComparator lc .count .desc) := by
  constructor
  · intro a b
    simp only [dashboardComparator]
    omega
  · intro a b c
    simp only [dashboardComparator]
    omega

theorem cmpNameAsc_lawful (lc : String → String → Int)
    (hlc : LawfulJSComparator lc) :
    LawfulJSComparator (dashboardComparator lc .name .asc) := by
  constructor
  · intro a b
    exact hlc.antisym a.name b.name
  · intro a b c
    exact hlc.trans a.name b.name c.name

theorem cmpNameDesc_lawful (lc : String → String → Int)
    (hlc : LawfulJSComparator lc) :
    LawfulJSComparator (dashboardComparator lc .name .desc) := by
  constructor
  · intro a b
    simp only [dashboardComparator]
    have h := hlc.antisym b.name a.name
    omega
  · intro a b c
    simp only [dashboardComparator]
    have hba := hlc.antisym b.name a.name
    have hcb := hlc.antisym c.name b.name
    have hca := hlc.antisym c.name a.name
    have h := hlc.trans c.name b.name a.name
    omega

/-- A concrete consistent comparator standing in for the host-provided
`localeCompare` in examples and witnesses: plain lexicographic string order,
returning -1/0/1 like a JavaScript comparator. -/
def strCmp (s t : String) : Int :=
  if s < t then -1 else if t < s then 1 else 0

theorem strCmp_le_zero (s t : String) : strCmp s t ≤ 0 ↔ s ≤ t := by
  unfold strCmp
  rcases lt_trichotomy s t with h | h | h
  · rw [if_pos h]
    simp [le_of_lt h]
  · subst h
    simp [lt_irrefl]
  · rw [if_neg (asymm h), if_pos h]
    simp [not_le.mpr h]

theorem zero_le_strCmp (s t : String) : 0 ≤ strCmp s t ↔ t ≤ s := by
  unfold strCmp
  rcases lt_trichotomy s t with h | h | h
  · rw [if_pos h]
    simp [not_le.mpr h]
  · subst h
    simp [lt_irrefl]
  · rw [if_neg (asymm h), if_pos h]
    simp [le_of_lt h]

theorem strCmp_lawful : LawfulJSComparator strCmp := by
  constructor
  · intro a b
    rw [strCmp_le_zero, zero_le_strCmp]
  · intro a b c
    rw [strCmp_le_zero, strCmp_le_zero, strCmp_le_zero]
    exact le_trans

/-- C4 counterexample: the claim reads "keeps exactly the elements whose name
contains the query case-insensitively", but the code matches against the
*trimmed* query.  With the whitespace-padded query `"ar "` the component
keeps `"Artist"` even though the lower-cased `"artist"` does not contain the
substring `"ar "`. -/
theorem filterAndSort_keeps_nonmatching_padded_query :
    filteredArtists strCmp [⟨"1", "Artist", 5⟩] "ar " .name .asc
      = [⟨"1", "Artist", 5⟩]
  ∧ jsIncludesChars (jsLowerChars "Artist".toList) (jsLowerChars "ar ".toList)
      = false := by
  constructor
  · decide
  · decide

/-- C4 (amended): for every list, query, sort column and direction,
`filteredArtists` keeps exactly the elements whose lower-cased name contains
the lower-cased *trimmed* query (keeping every element when the trimmed query
is empty), sorts them by `count` numerically or by the locale comparator `lc`
on names, ascending or descending as requested, and returns a new sequence
(the source sorts a copy, the input is untouched); with query "ar" on
[Artist, Band] only Artist is returned. -/
theorem filterAndSort_spec (lc : String → String → Int)
    (l : List ArtistSummary) (q : String) (col : SortColumn) (dir : SortDir) :
    (filteredArtists lc l q col dir).Perm
      (if jsLowerChars (jsTrim q) = [] then l
       else l.filter (fun a =>
         jsIncludesChars (jsLowerChars a.name.toList) (jsLowerChars (jsTrim q))))
  ∧ (jsTrim q = [] → (filteredArtists lc l q col dir).Perm l)
  ∧ (filteredArtists lc l q .count .asc).Pairwise (fun a b => a.count ≤ b.count)
  ∧ (filteredArtists lc l q .count .desc).Pairwise (fun a b => b.count ≤ a.count)
  ∧ (LawfulJSComparator lc →
      (filteredArtists lc l q .name .asc).Pairwise
        (fun a b => lc a.name b.name ≤ 0))
  ∧ (LawfulJSComparator lc →
      (filteredArtists lc l q .name .desc).Pairwise
        (fun a b => 0 ≤ lc a.name b.name))
  ∧ filteredArtists strCmp [⟨"1", "Artist", 10⟩, ⟨"2", "Band", 3⟩] "ar" .name .asc
      = [⟨"1", "Artist", 10⟩] := by
  refine ⟨?_, ?_, ?_, ?_, ?_, ?_, by decide⟩
  · exact jsSort_perm (dashboardComparator lc col dir)
      (if jsLowerChars (jsTrim q) = [] then l
       else l.filter (fun a =>
         jsIncludesChars (jsLowerChars a.name.toList) (jsLowerChars (jsTrim q))))
  · intro h
    have h0 : jsLowerChars (jsTrim q) = [] := by rw [h]; rfl
    have h1 : filteredArtists lc l q col dir
        = jsSort (dashboardComparator lc col dir)
          (if jsLowerChars (jsTrim q) = [] then l
           else l.filter (fun artist =>
             jsIncludesChars (jsLowerChars artist.name.toList)
               (jsLowerChars (jsTrim q)))) :=
      rfl
    rw [h1, if_pos h0]
    exact jsSort_perm _ _
  · refine (jsSort_pairwise _ (cmpCountAsc_lawful lc) _).imp ?_
    intro a b h
    simp only [dashboardComparator] at h
    omega
  · refine (jsSort_pairwise _ (cmpCountDescDir_lawful lc) _).imp ?_
    intro a b h
    simp only [dashboardComparator] at h
    omega
  · intro hlc
    exact jsSort_pairwise _ (cmpNameAsc_lawful lc hlc) _
  · intro hlc
    refine (jsSort_pairwise _ (cmpNameDesc_lawful lc hlc) _).imp ?_
    intro a b h
    simp only [dashboardComparator] at h
    omega

/-- Witness for the filter/sort theorem: the empty query keeps every element
and `strCmp` is a lawful comparator, so the name-sorted conjuncts apply. -/
theorem filterAndSort_spec_witness :
    (jsTrim "" = [] ∧ LawfulJSComparator strCmp)
  ∧ (filteredArtists strCmp topNExample "" .name .asc).Perm topNExample
  ∧ (filteredArtists strCmp topNExample "" .name .asc).Pairwise
      (fun a b => strCmp a.name b.name ≤ 0)
  ∧ (filteredArtists strCmp topNExample "" .name .desc).Pairwise
      (fun a b => 0 ≤ strCmp a.name b.name) :=
  ⟨⟨rfl, strCmp_lawful⟩,
   (filterAndSort_spec strCmp topNExample "" .name .asc).2.1 rfl,
   (filterAndSort_spec strCmp topNExample "" .name .asc).2.2.2.2.1 strCmp_lawful,
   (filterAndSort_spec strCmp topNExample "" .name .desc).2.2.2.2.2.1 strCmp_lawful⟩

/-- `TrackManagementComponent.rangeValidator` (src/unnamed/part_009): returns
the `{ invalidRange: true }` error object when both `min` and `max` are
non-null and `min > max`, and `null` otherwise.  The nullable
`ValidationErrors` result is an `Option`. -/
def rangeValidator (min max : Option Int) : Option String :=
  match min, max with
  | some mn, some mx => if mn > mx then some "invalidRange" else none
  | _, _ => none

/-- The observable outcome of `TrackManagementComponent.deleteByRange` up to
the confirmation dialog: `noAction` for the early return on an invalid form,
`warn` for the both-bounds-absent branch, `confirmPrompt` when the
confirmation dialog opens with the range phrase. -/
inductive RangeAction where
  | noAction
  | warn (msg : String)
  | confirmPrompt (message : String)
  deriving DecidableEq, Repr

/-- `TrackManagementComponent.deleteByRange`, up to the confirmation dialog:
`if (this.rangeForm.invalid) return;` then the min/max branch that builds the
message or warns when both bounds are null. -/
def deleteByRangeDispatch (formInvalid : Bool) (min max : Option Int) :
    RangeAction :=
  if formInvalid then .noAction
  else
    match min, max with
    | some mn, some mx =>
        .confirmPrompt ("Are you sure you want to delete tracks from artists with "
          ++ toString mn ++ " to " ++ toString mx ++ " tracks?")
    | some mn, none =>
        .confirmPrompt ("Are you sure you want to delete tracks from artists with at least "
          ++ toString mn ++ " tracks?")
    | none, some mx =>
        .confirmPrompt ("Are you sure you want to delete tracks from artists with at most "
          ++ toString mx ++ " tracks?")
    | none, none => .warn "Please specify at least one range value"

/-- C5: the range validator marks the form invalid exactly when both bounds
are provided and min > max (min=5,max=3 invalid; min=5,max=5 valid;
null/null valid); an invalid form makes the deletion request impossible
(`deleteByRange` returns without any action); and when both bounds are
absent the action warns the user instead of opening the confirmation
prompt. -/
theorem rangeValidator_and_dispatch :
    (∀ mn mx : Int, rangeValidator (some mn) (some mx) = none ↔ mn ≤ mx)
  ∧ (∀ mx : Option Int, rangeValidator none mx = none)
  ∧ (∀ mn : Option Int, rangeValidator mn none = none)
  ∧ rangeValidator (some 5) (some 3) ≠ none
  ∧ rangeValidator (some 5) (some 5) = none
  ∧ rangeValidator none none = none
  ∧ (∀ mn mx : Option Int, deleteByRangeDispatch true mn mx = .noAction)
  ∧ deleteByRangeDispatch false none none
      = .warn "Please specify at least one range value"
  ∧ (∀ msg, deleteByRangeDispatch false none none ≠ .confirmPrompt msg) := by
  refine ⟨?_, ?_, ?_, by decide, by decide, by decide, ?_, rfl, ?_⟩
  · intro mn mx
    simp only [rangeValidator]
    split_ifs with h
    · simp
      omega
    · simp
      omega
  · intro mx
    cases mx <;> rfl
  · intro mn
    cases mn <;> rfl
  · intro mn mx
    rfl
  · intro msg
    simp [deleteByRangeDispatch]

/-- The user-visible side effects that the embedded handlers can emit, in
order: toast notifications, router navigation, the global loading flag, the
range-form reset, and the dashboard's fresh `GET /track/summary` reload. -/
inductive UIEffect where
  | notifySuccess (msg : String)
  | notifyError (msg : String)
  | notifyWarning (msg : String)
  | navigate (path : String)
  | showLoading
  | hideLoading
  | resetForm
  | reloadSummary
  deriving DecidableEq, Repr

/-- An HTTP error response as the interceptor and the delete handlers see
it: its status code and the optional server-provided error message
(`error.error.message`). -/
structure HttpError where
  status : Int
  serverMessage : Option String
  deriving DecidableEq, Repr

/-- The `catchError` branch of the authoritative `authInterceptor`
(src/unnamed/part_018, second version, lines 86-166): on a 401 anywhere
except a request URL containing `/auth/is-auth` it shows the session-expired
notification and navigates to /login; a 500 and a status 0 each show one
notification; in every case the same error is re-thrown
(`return throwError(() => error)`). -/
def authInterceptorCatch (url : String) (err : HttpError) :
    List UIEffect × Except HttpError Unit :=
  let effects :=
    if err.status = 401 then
      if jsIncludes url "/auth/is-auth" then []
      else [UIEffect.notifyError "Session expired. Please login again.",
            UIEffect.navigate "/login"]
    else if err.status = 500 then
      [UIEffect.notifyError "Server error occurred. Please try again."]
    else if err.status = 0 then
      [UIEffect.notifyError "Unable to connect to server. Please check your connection."]
    else []
  (effects, Except.error err)

/-- C6: for every request URL and error, the interceptor re-raises the error
to the caller; a 401 on any URL other than the status-check endpoint emits
the session-expired notification and the forced /login navigation exactly
once each; a 401 on the status-check endpoint emits neither; a status-0
failure emits exactly the connectivity notification and a 500 exactly the
generic server-error notification. -/
theorem interceptor_401_once_and_rethrow (url : String) (err : HttpError) :
    (authInterceptorCatch url err).2 = Except.error err
  ∧ ((authInterceptorCatch url err).1.count
        (UIEffect.notifyError "Session expired. Please login again.")
      = if err.status = 401 ∧ jsIncludes url "/auth/is-auth" = false then 1 else 0)
  ∧ ((authInterceptorCatch url err).1.count (UIEffect.navigate "/login")
      = if err.status = 401 ∧ jsIncludes url "/auth/is-auth" = false then 1 else 0)
  ∧ (authInterceptorCatch url err).1
      = (if err.status = 401 then
          if jsIncludes url "/auth/is-auth" then []
          else [UIEffect.notifyError "Session expired. Please login again.",
                UIEffect.navigate "/login"]
         else if err.status = 500 then
          [UIEffect.notifyError "Server error occurred. Please try again."]
         else if err.status = 0 then
          [UIEffect.notifyError "Unable to connect to server. Please check your connection."]
         else []) := by
  refine ⟨rfl, ?_, ?_, rfl⟩ <;>
  · simp only [authInterceptorCatch]
    by_cases h1 : err.status = 401
    · cases hb : jsIncludes url "/auth/is-auth" with
      | true => simp [h1, hb]
      | false => simp [h1, hb]
    · by_cases h5 : err.status = 500
      · simp [h1, h5]
      · by_cases h0 : err.status = 0
        · simp [h1, h5, h0]
        · simp [h1, h5, h0]

/-- The confirmed branch of `DashboardComponentRefactored.deleteArtistTracks`
(src/unnamed/part_008): the `DELETE /track/by-artist` pipeline wrapped in
`withLoadingAndError` (src/app/core/utils/rxjs-operators.ts).  The
`tap(() => show)` of `withLoading` fires on the success emission; on success
the subscriber shows the success toast and calls `loadTrackSummary()` — a
fresh summary request; on error the `withErrorHandling` tap shows the fixed
"Failed to delete tracks" toast; the upstream `finalize` hides the loading
flag on either termination. -/
def deleteArtistTracksRun (artistName : String) (res : Except HttpError Unit) :
    List UIEffect :=
  match res with
  | .ok _ =>
      [UIEffect.showLoading,
       UIEffect.notifySuccess ("Successfully deleted tracks from " ++ artistName),
       UIEffect.reloadSummary,
       UIEffect.hideLoading]
  | .error _ =>
      [UIEffect.notifyError "Failed to delete tracks",
       UIEffect.hideLoading]

/-- The confirmed branch of `TrackManagementComponent.deleteByRange`
(src/unnamed/part_009): `loadingService.show()` runs synchronously, then the
`DELETE /track/by-range` subscription: on success it shows the success toast
and resets the form — it issues no summary request (the component holds no
summary list); on error it shows the fixed "Failed to delete tracks" toast,
ignoring any server message; `finalize` hides the loading flag on either
termination. -/
def deleteByRangeRun (res : Except HttpError Unit) : List UIEffect :=
  UIEffect.showLoading ::
    (match res with
     | .ok _ =>
        [UIEffect.notifySuccess "Successfully deleted tracks in the specified range",
         UIEffect.resetForm]
     | .error _ =>
        [UIEffect.notifyError "Failed to delete tracks"])
    ++ [UIEffect.hideLoading]

/-- C7 counterexample: the claim says every successful deletion — by artist
*or by count range* — reloads the artist summary from the backend, but the
range deletion's success handler only shows the toast and resets the form:
no summary-reload request is among its effects. -/
theorem deleteByRange_success_no_reload :
    UIEffect.reloadSummary ∉ deleteByRangeRun (Except.ok ())
  ∧ UIEffect.notifySuccess "Successfully deleted tracks in the specified range"
      ∈ deleteByRangeRun (Except.ok ()) := by
  constructor
  · decide
  · decide

/-- C7 (amended): a successful artist deletion shows a success notification
and reloads the summary list via a fresh backend request (not an optimistic
patch); a successful range deletion shows a success notification and resets
the form, but does not reload any summary list (the track-management
component holds none). -/
theorem delete_success_notification_and_reload (artistName : String) :
    deleteArtistTracksRun artistName (Except.ok ())
      = [UIEffect.showLoading,
         UIEffect.notifySuccess ("Successfully deleted tracks from " ++ artistName),
         UIEffect.reloadSummary,
         UIEffect.hideLoading]
  ∧ UIEffect.reloadSummary ∈ deleteArtistTracksRun artistName (Except.ok ())
  ∧ UIEffect.notifySuccess ("Successfully deleted tracks from " ++ artistName)
      ∈ deleteArtistTracksRun artistName (Except.ok ())
  ∧ deleteByRangeRun (Except.ok ())
      = [UIEffect.showLoading,
         UIEffect.notifySuccess "Successfully deleted tracks in the specified range",
         UIEffect.resetForm,
         UIEffect.hideLoading]
  ∧ UIEffect.reloadSummary ∉ deleteByRangeRun (Except.ok ()) := by
  refine ⟨rfl, ?_, ?_, rfl, by decide⟩
  · simp [deleteArtistTracksRun]
  · simp [deleteArtistTracksRun]

/-- C8 counterexample: the claim says a failed deletion shows the
server-provided message when the response contains one, but the range
deletion's error handler always shows the fixed generic text: with a server
message "Spotify quota exceeded" the toast is still "Failed to delete
tracks". -/
theorem deleteByRange_ignores_server_message :
    deleteByRangeRun (Except.error ⟨500, some "Spotify quota exceeded"⟩)
      = [UIEffect.showLoading,
         UIEffect.notifyError "Failed to delete tracks",
         UIEffect.hideLoading]
  ∧ UIEffect.notifyError "Spotify quota exceeded"
      ∉ deleteByRangeRun (Except.error ⟨500, some "Spotify quota exceeded"⟩) := by
  constructor
  · rfl
  · decide

/-- C8 (amended): for every outcome of an artist or range deletion the
global loading indicator is hidden, and on failure the error notification is
always the fixed generic "Failed to delete tracks" text, regardless of any
server-provided message (only the playlist actions use the server
message). -/
theorem delete_failure_generic_toast_loading_hidden (artistName : String)
    (res : Except HttpError Unit) (e : HttpError) :
    UIEffect.hideLoading ∈ deleteByRangeRun res
  ∧ UIEffect.hideLoading ∈ deleteArtistTracksRun artistName res
  ∧ deleteByRangeRun (Except.error e)
      = [UIEffect.showLoading,
         UIEffect.notifyError "Failed to delete tracks",
         UIEffect.hideLoading]
  ∧ deleteArtistTracksRun artistName (Except.error e)
      = [UIEffect.notifyError "Failed to delete tracks",
         UIEffect.hideLoading] := by
  refine ⟨?_, ?_, rfl, rfl⟩
  · cases res <;> simp [deleteByRangeRun]
  · cases res <;> simp [deleteArtistTracksRun]

/-- A JavaScript `number | null | undefined` value as it reaches
`buildRangeParams`: the typed signature says `number | undefined`, but
`deleteByRange` passes the raw form values, which are `null` when a bound is
left empty or set by an open-ended preset. -/
inductive JSNum where
  | undef
  | null
  | num (n : Int)
  deriving DecidableEq, Repr

/-- JavaScript `v.toString()` on such a value: a number yields its decimal
representation; on `null` or `undefined` member access throws a
TypeError. -/
def jsNumToString : JSNum → Except String String
  | .num n => .ok (toString n)
  | .null => .error "TypeError: Cannot read properties of null (reading toString)"
  | .undef => .error "TypeError: Cannot read properties of undefined (reading toString)"

/-- Angular `HttpParams.set(key, value)`: returns params with `key` bound to
`value`, replacing an existing binding and appending otherwise. -/
def httpParamsSet (params : List (String × String)) (key value : String) :
    List (String × String) :=
  if params.any (fun kv => kv.1 == key) then
    params.map (fun kv => if kv.1 == key then (key, value) else kv)
  else params ++ [(key, value)]

/-- `buildRangeParams` (src/unnamed/part_013): starts from empty
`HttpParams`; `if (min !== undefined) params = params.set(min.toString())` —
a check that passes for `null`, whose `.toString()` throws — and likewise
for `max`. -/
def buildRangeParams (min max : JSNum) : Except String (List (String × String)) := do
  let params : List (String × String) := []
  let params ←
    if min ≠ JSNum.undef then do
      let s ← jsNumToString min
      pure (httpParamsSet params "min" s)
    else pure params
  let params ←
    if max ≠ JSNum.undef then do
      let s ← jsNumToString max
      pure (httpParamsSet params "max" s)
    else pure params
  pure params

/-- C9 (code bug): the open-ended presets submit `null` bounds — e.g.
"Large Collections" patches min=20, max=null — and `deleteByRange` forwards
them to `buildRangeParams`, which only guards against `undefined`:
evaluation reaches `null.toString()` and throws a TypeError instead of
producing only the min parameter.  With a genuinely absent (undefined)
bound, and with 0 as a bound, the parameters are built exactly as the claim
and the function's own documentation describe. -/
theorem buildRangeParams_null_bound_throws :
    buildRangeParams (.num 20) .null
      = Except.error "TypeError: Cannot read properties of null (reading toString)"
  ∧ buildRangeParams .null (.num 5)
      = Except.error "TypeError: Cannot read properties of null (reading toString)"
  ∧ buildRangeParams (.num 20) .undef = Except.ok [("min", "20")]
  ∧ buildRangeParams .undef (.num 5) = Except.ok [("max", "5")]
  ∧ buildRangeParams .undef .undef = Except.ok []
  ∧ buildRangeParams (.num 0) (.num 5) = Except.ok [("min", "0"), ("max", "5")] := by
  exact ⟨rfl, rfl, rfl, rfl, rfl, rfl⟩

/-- The envelope of the `GET /auth/is-auth` response
(src/app/core/models/api-response.model.ts `AuthResponse`): the `success`
flag drives everything; optional message and user are irrelevant here. -/
structure AuthResponse where
  success : Bool
  message : Option String
  deriving DecidableEq, Repr

/-- The client-side authentication state `AuthService` maintains: the
`_isAuthenticated` signal and the persisted localStorage key
`isAuthenticated` (present with value "true" or removed). -/
structure AuthState where
  isAuthenticated : Bool
  storage : Option String
  deriving DecidableEq, Repr

/-- `AuthService.checkAuthStatus` (src/unnamed/part_014): the
`http.get(/auth/is-auth)` pipeline `map(response => response.success)`,
`tap(isAuth => set signal; set or remove the persisted flag)`,
`catchError(() => set false; remove flag; return of(false))`.  The emitted
value has error type `Empty`: the observable can only emit a boolean. -/
def checkAuthStatus (res : Except HttpError AuthResponse) (s : AuthState) :
    Except Empty Bool × AuthState :=
  let mapped : Except HttpError Bool := res.map AuthResponse.success
  let tapped : Except HttpError Bool × AuthState :=
    match mapped with
    | .ok isAuth =>
        (.ok isAuth,
         { isAuthenticated := isAuth,
           storage := if isAuth then some "true" else none })
    | .error err => (.error err, s)
  match tapped.1 with
  | .ok b => (.ok b, tapped.2)
  | .error _ => (.ok false, { isAuthenticated := false, storage := none })

/-- The navigation decision of the functional route guard. -/
inductive GuardResult where
  | allow
  | redirect (path : String)
  deriving DecidableEq, Repr

/-- `authGuard` (src/app/core/guards/auth.guard.ts): maps the boolean emitted
by `checkAuthStatus` to `true` (allow) or a `/login` UrlTree redirect. -/
def authGuard (res : Except HttpError AuthResponse) (s : AuthState) :
    GuardResult :=
  match (checkAuthStatus res s).1 with
  | .ok true => .allow
  | .ok false => .redirect "/login"
  | .error e => nomatch e

/-- C10: for every outcome of the status-check request, `checkAuthStatus`
emits exactly one boolean and never propagates an error: a successful
response emits its `success` flag and sets the authenticated signal and the
persisted flag accordingly; any failure emits `false`, sets the signal to
`false` and removes the persisted flag; so the route guard always receives a
boolean decision — allow, or a redirect to /login. -/
theorem checkAuthStatus_always_boolean (r : AuthResponse) (e : HttpError)
    (s : AuthState) :
    checkAuthStatus (Except.ok r) s
      = (Except.ok r.success,
         ⟨r.success, if r.success then some "true" else none⟩)
  ∧ checkAuthStatus (Except.error e) s = (Except.ok false, ⟨false, none⟩)
  ∧ (∀ res : Except HttpError AuthResponse, ∃ b : Bool,
      (checkAuthStatus res s).1 = Except.ok b)
  ∧ authGuard (Except.ok r) s
      = (if r.success then GuardResult.allow else GuardResult.redirect "/login")
  ∧ authGuard (Except.error e) s = GuardResult.redirect "/login" := by
  refine ⟨rfl, rfl, ?_, ?_, rfl⟩
  · intro res
    cases res with
    | ok r0 => exact ⟨r0.success, rfl⟩
    | error e0 => exact ⟨false, rfl⟩
  · obtain ⟨succ, msg⟩ := r
    cases succ <;> rfl
